import Mathlib

/-!
Verification development for the VST plugin host (SuperCollider UGen
version).  The definitions below are shallow embeddings of the C++
source, mainly `VstPluginUGen.cpp` (the `VstPlugin` UGen, its listener,
and the `VST2Plugin` preset codec).  Machine integers are modelled as
`Int`/`Nat` with explicit wrap-around where the C++ performs unsigned
arithmetic; 32-bit floats are modelled either as their 32-bit patterns
(`Nat`, preset codec) or as an inductive with an explicit NaN
(`Val`, parameter store), because the only float operations the code
performs there are copying and IEEE `!=` comparison.
-/

namespace VstHost

/-- Model of a 32-bit float value as used by the parameter store:
either a NaN (the initial sentinel written by `open`) or an ordinary
value identified by an integer code.  The only operation the host ever
performs on these values is the IEEE `!=` comparison. -/
inductive Val where
  | nan : Val
  | num : Int → Val
deriving DecidableEq, Repr

/-- IEEE `!=` on modelled floats: NaN compares unequal to everything,
including itself; ordinary values compare by identity. -/
def vne : Val → Val → Bool
  | .nan, _ => true
  | _, .nan => true
  | .num a, .num b => a != b

/-! ## Preset codec (`VST2Plugin::readProgramData` / `writeProgramData`)

Byte streams are `List Nat` (each entry one byte, reduced mod 256 on
access).  Parameter values travel through `bytes_to_float` /
`float_to_bytes`, which on a little-endian host are exact big-endian
bit-pattern conversions, so a parameter value is modelled as its 32-bit
pattern (`Nat < 2^32`). -/

/-- Byte access into a stream; out-of-range reads yield 0 and every
entry is reduced mod 256 (C++ `char`). -/
def byteAt (d : List Nat) (i : Nat) : Nat := d.getD i 0 % 256

/-- Big-endian 32-bit word at offset `i` (the bit pattern read by
`bytes_to_int32` / `bytes_to_float`). -/
def word32At (d : List Nat) (i : Nat) : Nat :=
  byteAt d i * 2 ^ 24 + byteAt d (i + 1) * 2 ^ 16 + byteAt d (i + 2) * 2 ^ 8 + byteAt d (i + 3)

/-- Signed interpretation of the big-endian word at offset `i`
(`bytes_to_int32`). -/
def int32At (d : List Nat) (i : Nat) : Int :=
  let w := word32At d i
  if w < 2 ^ 31 then (w : Int) else (w : Int) - 2 ^ 32

/-- Conversion of a signed value to C++ `size_t` (unsigned 64-bit). -/
def asSizeT (x : Int) : Nat := (x % (2 ^ 64 : Int)).toNat

/-- Wrapping `size_t` subtraction `a - b` for `a < 2^64`, `b ≤ 2^64`. -/
def subSizeT (a b : Nat) : Nat := (a + 2 ^ 64 - b) % 2 ^ 64

/-- Truncating store of a signed value as 4 big-endian bytes
(`int32_to_bytes` on a little-endian host). -/
def i32bytes (x : Int) : List Nat :=
  let w := (x % (2 ^ 32 : Int)).toNat
  [w / 2 ^ 24 % 256, w / 2 ^ 16 % 256, w / 2 ^ 8 % 256, w % 256]

/-- Store of a 32-bit pattern as 4 big-endian bytes
(`float_to_bytes` on a little-endian host). -/
def w32bytes (w : Nat) : List Nat :=
  [w / 2 ^ 24 % 256, w / 2 ^ 16 % 256, w / 2 ^ 8 % 256, w % 256]

/-- Magic `CcnK` (`cMagic`). -/
def cMagic : Int := 0x43636E4B

/-- Magic `FxCk` (`fMagic`, parameter-form program). -/
def fMagic : Int := 0x4678436B

/-- Magic `FPCh` (`chunkPresetMagic`, chunk-form program). -/
def chunkPresetMagic : Int := 0x46504368

/-- Header size of an fxProgram (7 × int32 + 28-character name). -/
def fxProgramHeaderSize : Nat := 56

/-- Model of the state a `VST2Plugin` exposes to the preset codec:
chunk capability flag, parameter count, parameter store (32-bit
patterns), program name (byte string as handed to `setProgramName`),
program chunk, unique id and version. -/
structure FxPlugin where
  hasChunkData : Bool
  numParams : Nat
  params : Nat → Nat
  progName : List Nat
  chunk : List Nat
  uniqueID : Int
  version : Int

/-- Backend call `setParameter(i, v)` with `v` a 32-bit pattern. -/
def fxSetParameter (p : FxPlugin) (i : Nat) (v : Nat) : FxPlugin :=
  { p with params := fun j => if j = i then v else p.params j }

/-- C-string read starting at offset `off`: bytes up to the first NUL
(or the end of the stream), as passed to `setProgramName`. -/
def cstrAt (d : List Nat) (off : Nat) : List Nat :=
  ((d.drop off).map (· % 256)).takeWhile (· ≠ 0)

/-- Program-name field written by `writeProgramData`: `strncpy` of at
most 27 characters, NUL-padded to 28 bytes. -/
def nameField (s : List Nat) : List Nat :=
  let t := s.take 27
  t ++ List.replicate (28 - t.length) 0

/-- Parameter-loop of `readProgramData`: starting at slot `i`, set the
next `k` parameters from consecutive 4-byte big-endian patterns,
advancing the byte pointer by 4 each step. -/
def setParamsFromBytes : FxPlugin → List Nat → Nat → Nat → FxPlugin
  | p, _, _, 0 => p
  | p, bs, i, Nat.succ k =>
      setParamsFromBytes (fxSetParameter p i (word32At bs 0)) (bs.drop 4) (i + 1) k

/-- Sequence of `k` 32-bit big-endian words decoded from the front of a
byte stream (pointer advancing by 4 each step). -/
def takeWords : Nat → List Nat → List Nat
  | 0, _ => []
  | Nat.succ k, bs => word32At bs 0 :: takeWords k (bs.drop 4)

/-- Declared total size of an fxProgram container, as the code computes
it: the stored byte-size field plus the 8 bytes it excludes, in
`size_t` arithmetic. -/
def rpdTotalSize (data : List Nat) : Nat := asSizeT (int32At data 4 + 8)

/-- Declared chunk size of a chunk-form fxProgram (`size_t`). -/
def rpdChunkSize (data : List Nat) : Nat := asSizeT (int32At data fxProgramHeaderSize)

/-- Embedding of `VST2Plugin::readProgramData(data, size)`; result is
`(returned bool, plugin state afterwards)`.  All checks happen before
any mutation, exactly as in the source; the size comparisons follow the
C++ `size_t` arithmetic (unsigned 64-bit, wrapping). -/
def readProgramData (p : FxPlugin) (data : List Nat) : Bool × FxPlugin :=
  if data.length < fxProgramHeaderSize then (false, p)
  else if int32At data 0 ≠ cMagic then (false, p)
  else if rpdTotalSize data > data.length then (false, p)
  else if int32At data 8 = fMagic then
    if p.hasChunkData then (false, p)
    else if asSizeT (int32At data 24) * 4 % 2 ^ 64 >
        subSizeT (rpdTotalSize data) fxProgramHeaderSize then (false, p)
    else
      (true, setParamsFromBytes { p with progName := cstrAt data 28 }
        (data.drop fxProgramHeaderSize) 0 (int32At data 24).toNat)
  else if int32At data 8 = chunkPresetMagic then
    if ¬p.hasChunkData then (false, p)
    else if rpdChunkSize data ≠ subSizeT (subSizeT (rpdTotalSize data) fxProgramHeaderSize) 4 then
      (false, p)
    else
      (true, { p with progName := cstrAt data 28,
                      chunk := ((data.drop 60).take (rpdChunkSize data)).map (· % 256) })
  else (false, p)

/-- Parameter serialisation loop of `writeProgramData`: `k` consecutive
parameter patterns starting at slot `i`, each as 4 big-endian bytes. -/
def encodeParams (p : FxPlugin) : Nat → Nat → List Nat
  | _, 0 => []
  | i, Nat.succ k => w32bytes (p.params i) ++ encodeParams p (i + 1) k

/-- Serialised 7-field fxProgram header: `cMagic`, byte size, form
magic, format version 1, plugin unique id, plugin version, parameter
count — each as 4 big-endian bytes. -/
def fxHeaderBytes (byteSize fxMagicVal uid ver count : Int) : List Nat :=
  i32bytes cMagic ++ i32bytes byteSize ++ i32bytes fxMagicVal ++ i32bytes 1 ++
    i32bytes uid ++ i32bytes ver ++ i32bytes count

/-- Embedding of `VST2Plugin::writeProgramData(buffer)`: the byte
buffer produced.  In the chunk branch an empty chunk makes the routine
return with the (empty) buffer untouched. -/
def writeProgramData (p : FxPlugin) : List Nat :=
  if ¬p.hasChunkData then
    fxHeaderBytes ((fxProgramHeaderSize + p.numParams * 4 : Nat) - 8) fMagic
        p.uniqueID p.version (p.numParams : Int) ++
      (nameField p.progName ++ encodeParams p 0 p.numParams)
  else if p.chunk.length = 0 then []
  else
    fxHeaderBytes ((fxProgramHeaderSize + 4 + p.chunk.length : Nat) - 8) chunkPresetMagic
        p.uniqueID p.version (p.numParams : Int) ++
      (nameField p.progName ++ (i32bytes (p.chunk.length : Int) ++ p.chunk))

/-! ## The `VstPlugin` UGen: state, commands and the perform routine -/

/-- GUI mode of the UGen (`GuiType`). -/
inductive GuiType where
  | noGui : GuiType
  | scGui : GuiType
  | vstGui : GuiType
deriving DecidableEq, Repr

/-- Per-parameter slot (`VstPlugin::Param`): the value last sent to or
read for the parameter and the control bus it is mapped to (−1 when
unmapped). -/
structure ParamState where
  value : Val
  bus : Int
deriving DecidableEq, Repr

/-- Backend (`IVSTPlugin`) calls the host can issue; `next`, `setParam`
and friends are specified by the trace of these calls. -/
inductive Call where
  | suspend : Call
  | resume : Call
  | setParameter : Nat → Val → Call
  | process : Nat → Call
deriving DecidableEq, Repr

/-- Outgoing engine messages the modelled routines can emit. -/
inductive Msg where
  | param : Nat → Val → Msg
  | warnOutOfRange : Msg
  | warnNoPlugin : Msg
deriving DecidableEq, Repr

/-- Engine-side context read by the perform routine: the control-bus
array and its channel count (`mWorld->mControlBus`,
`mWorld->mNumControlBusChannels`). -/
structure World where
  controlBus : Nat → Val
  numControlBusChannels : Nat

/-- State of one `VstPlugin` UGen instance together with the modelled
backend state it owns.  `bufAlloc` stands for
`buf_ && inBufVec_ && outBufVec_`, `paramAlloc` for `paramStates_`,
`procOut` for the audio the loaded plugin would write in this block and
`pluginNumOuts` for `plugin_->getNumOutputs()`. -/
structure UGenState where
  bufAlloc : Bool
  pluginLoaded : Bool
  singlePrec : Bool
  nparam : Nat
  paramAlloc : Bool
  paramStates : Nat → ParamState
  pluginParams : Nat → Val
  bypassOld : Bool
  gui : GuiType
  notify : Bool
  nin : Nat
  nout : Nat
  pluginNumOuts : Nat
  procOut : List (List Val)

/-- Reading a control bus (`VstPlugin::readControlBus`): the bus value
when the index is in range, otherwise 0. -/
def readControlBus (w : World) (num : Int) : Val :=
  if 0 ≤ num ∧ num < (w.numControlBusChannels : Int) then w.controlBus num.toNat else Val.num 0

/-- Message list produced by `VstPlugin::sendParameter(index)`: a
`/vst_p` reply only when the SC GUI is active or notification is on. -/
def sendParameterMsgs (st : UGenState) (i : Nat) : List Msg :=
  if st.gui = GuiType.scGui ∨ st.notify then [Msg.param i (st.pluginParams i)] else []

/-- State update performed by `VstPlugin::setParam(index, value)` on an
in-range index: record the value in the backend store and in slot `i`,
and invalidate the bus mapping of slot `i`. -/
def setParamNewState (st : UGenState) (i : Nat) (v : Val) : UGenState :=
  { st with
    pluginParams := fun j => if j = i then v else st.pluginParams j,
    paramStates := fun j => if j = i then ⟨v, -1⟩ else st.paramStates j }

/-- Embedding of `VstPlugin::setParam(index, value)` (body, after the
`check()` and range guard pass): forward to the backend, record the
value, invalidate the bus mapping and send the parameter reply. -/
def setParam (st : UGenState) (index : Int) (v : Val) : UGenState × List Call × List Msg :=
  if ¬st.pluginLoaded then (st, [], [Msg.warnNoPlugin])
  else if 0 ≤ index ∧ index < (st.nparam : Int) then
    (setParamNewState st index.toNat v, [Call.setParameter index.toNat v],
      sendParameterMsgs (setParamNewState st index.toNat v) index.toNat)
  else (st, [], [Msg.warnOutOfRange])

/-- Embedding of `VstPlugin::mapParam(index, bus)`. -/
def mapParam (st : UGenState) (index : Int) (bus : Int) : UGenState × List Msg :=
  if ¬st.pluginLoaded then (st, [Msg.warnNoPlugin])
  else if 0 ≤ index ∧ index < (st.nparam : Int) then
    ({ st with paramStates := fun j =>
        if j = index.toNat then ⟨(st.paramStates j).value, bus⟩ else st.paramStates j }, [])
  else (st, [Msg.warnOutOfRange])

/-- One iteration of the bus-mapping loop in `VstPlugin::next`: for
slot `i`, if it is mapped (`bus >= 0`), read the bus and, when the
value changed, forward it to the backend and record it. -/
def busStep (w : World) (st : UGenState) (i : Nat) : UGenState × List Call :=
  if 0 ≤ (st.paramStates i).bus then
    if vne (readControlBus w (st.paramStates i).bus) (st.paramStates i).value then
      ({ st with
          paramStates := fun j =>
            if j = i then ⟨readControlBus w (st.paramStates i).bus, (st.paramStates i).bus⟩
            else st.paramStates j,
          pluginParams := fun j =>
            if j = i then readControlBus w (st.paramStates i).bus else st.pluginParams j },
        [Call.setParameter i (readControlBus w (st.paramStates i).bus)])
    else (st, [])
  else (st, [])

/-- Bus-mapping loop of `VstPlugin::next` over slots `0 .. k-1`. -/
def busLoop (w : World) (st : UGenState) : Nat → UGenState × List Call
  | 0 => (st, [])
  | Nat.succ k =>
      let r := busLoop w st k
      let s := busStep w r.1 k
      (s.1, r.2 ++ s.2)

/-- One iteration of the UGen-input parameter loop in
`VstPlugin::next`: a `(index, value)` input pair is forwarded only when
the index is in range, the slot is not bus-mapped and the value
changed. -/
def ugenStep (st : UGenState) (nparam : Nat) (p : Int × Val) : UGenState × List Call :=
  if 0 ≤ p.1 ∧ p.1 < (nparam : Int) ∧ (st.paramStates p.1.toNat).bus < 0 ∧
      vne (st.paramStates p.1.toNat).value p.2 then
    ({ st with
        paramStates := fun j =>
          if j = p.1.toNat then ⟨p.2, (st.paramStates j).bus⟩ else st.paramStates j,
        pluginParams := fun j => if j = p.1.toNat then p.2 else st.pluginParams j },
      [Call.setParameter p.1.toNat p.2])
  else (st, [])

/-- UGen-input parameter loop of `VstPlugin::next` over the pairs of
parameter-control inputs (`nparam` is captured once before the loop). -/
def ugenLoop (st : UGenState) (nparam : Nat) : List (Int × Val) → UGenState × List Call
  | [] => (st, [])
  | p :: rest =>
      let s := ugenStep st nparam p
      let r := ugenLoop s.1 nparam rest
      (r.1, s.2 ++ r.2)

/-- Reset calls issued at the top of `VstPlugin::next`: `reset()` (a
`suspend` followed by a `resume`) runs only when a plugin is loaded and
the bypass control just switched from on to off. -/
def resetCallsOf (st : UGenState) (bypass : Bool) : List Call :=
  if st.pluginLoaded ∧ bypass = false ∧ bypass ≠ st.bypassOld then
    [Call.suspend, Call.resume]
  else []

/-- Both parameter-update loops of `VstPlugin::next` (bus-mapped slots,
then UGen input pairs), guarded by `paramStates_` being allocated. -/
def paramLoops (w : World) (st : UGenState) (uctrl : List (Int × Val)) :
    UGenState × List Call :=
  if st.paramAlloc then
    ((ugenLoop (busLoop w st st.nparam).1 st.nparam uctrl).1,
     (busLoop w st st.nparam).2 ++ (ugenLoop (busLoop w st st.nparam).1 st.nparam uctrl).2)
  else (st, [])

/-- Output channels after the processing branch of `next`: the first
`pluginNumOuts` channels hold what the plugin wrote, the remaining
outlets are zeroed. -/
def processOuts (st : UGenState) (n : Nat) : List (List Val) :=
  (List.range st.nout).map fun i =>
    if i < st.pluginNumOuts then st.procOut.getD i [] else List.replicate n (Val.num 0)

/-- Output channels after the bypass branch of `next`: the first
`min nin nout` channels copy the inputs, the remaining outlets are
zeroed. -/
def bypassOuts (st : UGenState) (ins : List (List Val)) (n : Nat) : List (List Val) :=
  (List.range st.nout).map fun i =>
    if i < min st.nin st.nout then ins.getD i [] else List.replicate n (Val.num 0)

/-- Embedding of the perform routine `VstPlugin::next(inNumSamples)`.
Inputs: engine context `w`, current state `st`, the bypass control,
the parameter-control input pairs, the audio input channels, the
previous contents of the output channels and the block size `n`.
Result: new state, backend-call trace, new output channel contents.
The parameter-automation queue drain that `next` performs when a VST
editor window exists is modelled separately by `drainParamQueue`. -/
def next (w : World) (st : UGenState) (bypass : Bool) (uctrl : List (Int × Val))
    (ins : List (List Val)) (outs : List (List Val)) (n : Nat) :
    UGenState × List Call × List (List Val) :=
  if ¬st.bufAlloc then (st, [], outs)
  else if st.pluginLoaded ∧ bypass = false ∧ st.singlePrec then
    ((paramLoops w { st with bypassOld := bypass } uctrl).1,
     resetCallsOf st bypass ++ (paramLoops w { st with bypassOld := bypass } uctrl).2 ++
       [Call.process n],
     processOuts st n)
  else
    ({ st with bypassOld := bypass }, resetCallsOf st bypass, bypassOuts st ins n)

/-- Processing of one `(index, count, values)` triple by the `setn`
unit command (`vst_setn`): for each value, the target slot is computed
as `index + 1` and guarded against the parameter count. -/
def setnTriple (st : UGenState) (nparam : Nat) (index : Int) :
    List Val → UGenState × List Call × List Msg
  | [] => (st, [], [])
  | v :: rest =>
      let idx := index + 1
      let s :=
        if 0 ≤ idx ∧ idx < (nparam : Int) then setParam st idx v else (st, [], [])
      let r := setnTriple s.1 nparam index rest
      (r.1, s.2.1 ++ r.2.1, s.2.2 ++ r.2.2)

/-- Embedding of the `setn` unit command (`vst_setn`): triples of
`(index, count, values)` are modelled as pairs of an index and the list
of `count` values. -/
def vstSetn (st : UGenState) : List (Int × List Val) → UGenState × List Call × List Msg
  | [] => (st, [], [])
  | t :: rest =>
      let s := setnTriple st st.nparam t.1 t.2
      let r := vstSetn s.1 rest
      (r.1, s.2.1 ++ r.2.1, s.2.2 ++ r.2.2)

/-- Embedding of `vst_setn` including the leading `check()`: with no
plugin loaded nothing happens. -/
def vstSetnCmd (st : UGenState) (ts : List (Int × List Val)) : UGenState × List Call × List Msg :=
  if st.pluginLoaded then vstSetn st ts else (st, [], [Msg.warnNoPlugin])

/-! ## Listener thread routing and the parameter-automation queue -/

/-- Thread a backend callback can arrive on. -/
inductive CbThread where
  | audio : CbThread
  | gui : CbThread
  | worker : CbThread
deriving DecidableEq, Repr

/-- Disposition of a backend event inside the listener. -/
inductive EventAction where
  | emitInline : EventAction
  | pushInbox : EventAction
  | dropped : EventAction
deriving DecidableEq, Repr

/-- Routing of `VstPluginListener::midiEvent` (threaded build): the
event is forwarded inline only when the caller is the realtime thread,
otherwise it is ignored. -/
def midiEventAction (t : CbThread) : EventAction :=
  if t = CbThread.audio then EventAction.emitInline else EventAction.dropped

/-- Routing of `VstPluginListener::sysexEvent` (threaded build),
identical to the MIDI case. -/
def sysexEventAction (t : CbThread) : EventAction :=
  if t = CbThread.audio then EventAction.emitInline else EventAction.dropped

/-- Routing of `VstPluginListener::parameterAutomated` (threaded
build): the pair is appended to the mutex-protected queue from any
thread. -/
def parameterAutomatedAction : CbThread → EventAction :=
  fun _ => EventAction.pushInbox

/-- Locking primitive used on the parameter-automation queue mutex. -/
inductive LockKind where
  | blocking : LockKind
  | nonBlocking : LockKind
deriving DecidableEq, Repr

/-- Lock used by the audio-thread drain in `VstPlugin::next`
(`std::lock_guard<std::mutex> guard(mutex_)`). -/
def drainLock : LockKind := LockKind.blocking

/-- Lock used by the GUI-thread producer
`VstPluginListener::parameterAutomated` (`std::lock_guard`). -/
def producerLock : LockKind := LockKind.blocking

/-- Outcome of the audio-thread drain of the parameter-automation
queue for a given mutex state. -/
inductive DrainResult where
  | blocked : DrainResult
  | drained : List (Nat × Val) → DrainResult
deriving DecidableEq, Repr

/-- Drain of the parameter-automation queue performed by `next` when a
VST editor window exists: the audio thread takes `mutex_` with a
blocking `lock_guard`, so it waits whenever another thread holds the
mutex; once it holds the lock it emits every queued item and clears the
queue. -/
def drainParamQueue (heldByOther : Bool) (queue : List (Nat × Val)) : DrainResult :=
  if heldByOther then DrainResult.blocked else DrainResult.drained queue

/-! ## Program-name enumeration (`VstPlugin::sendProgramNames`) -/

/-- Message emitted for one program name. -/
structure PgmMsg where
  index : Nat
  name : String
deriving DecidableEq, Repr

/-- Backend state seen by the program-name enumeration:
`indexedName i` is what `getProgramNameIndexed(i)` returns (empty for
old plugins), `names p` is the name `getProgramName()` reports while
program `p` is selected, `current` the selected program. -/
structure ProgPlugin where
  nprograms : Nat
  current : Nat
  indexedName : Nat → String
  names : Nat → String

/-- Backend `setProgram` (the `VST2Plugin` version guards the range). -/
def progSetProgram (p : ProgPlugin) (num : Int) : ProgPlugin :=
  if 0 ≤ num ∧ num < (p.nprograms : Int) then { p with current := num.toNat } else p

/-- Embedding of `VstPlugin::sendProgramName(num)`: when the indexed
name lookup comes back empty the program is selected to obtain its
name, and `true` is returned to signal the switch. -/
def sendProgramName (p : ProgPlugin) (num : Nat) : ProgPlugin × Bool × PgmMsg :=
  let name := p.indexedName num
  if name = "" then
    let p1 := progSetProgram p (num : Int)
    (p1, true, ⟨num, p1.names p1.current⟩)
  else (p, false, ⟨num, name⟩)

/-- Loop of `VstPlugin::sendProgramNames` over programs `0 .. k-1`; the
`changed` flag is overwritten by each iteration, exactly as in the
source (`changed = sendProgramName(i)`). -/
def sendProgramNamesLoop (p : ProgPlugin) : Nat → ProgPlugin × Bool × List PgmMsg
  | 0 => (p, false, [])
  | Nat.succ k =>
      let r := sendProgramNamesLoop p k
      let s := sendProgramName r.1 k
      (s.1, s.2.1, r.2.2 ++ [s.2.2])

/-- Embedding of `VstPlugin::sendProgramNames`: enumerate all program
names, then restore the originally current program only when the flag
left by the last iteration says a switch happened. -/
def sendProgramNames (p : ProgPlugin) : ProgPlugin × List PgmMsg :=
  let current := p.current
  let r := sendProgramNamesLoop p p.nprograms
  if r.2.1 then (progSetProgram r.1 (current : Int), r.2.2) else (r.1, r.2.2)

/-! ## Remaining model definitions and concrete demonstration data -/

/-- Effect of one iteration of the bus loop on its own slot. -/
def busSlotNew (w : World) (slot : ParamState) : ParamState :=
  if 0 ≤ slot.bus then
    if vne (readControlBus w slot.bus) slot.value then
      ⟨readControlBus w slot.bus, slot.bus⟩
    else slot
  else slot

/-- Concrete engine context: eight control busses holding the values
`10, 11, …`. -/
def demoWorld : World := ⟨fun i => Val.num ((i : Int) + 10), 8⟩

/-- Concrete UGen state: plugin loaded, buffers allocated, four
parameters, none mapped, SC GUI off, notification off. -/
def demoState : UGenState where
  bufAlloc := true
  pluginLoaded := true
  singlePrec := true
  nparam := 4
  paramAlloc := true
  paramStates := fun _ => ⟨Val.num 0, -1⟩
  pluginParams := fun _ => Val.num 0
  bypassOld := false
  gui := GuiType.noGui
  notify := false
  nin := 2
  nout := 2
  pluginNumOuts := 2
  procOut := [[], []]

/-- Concrete backend for the program-name enumeration: two programs,
program 1 selected, indexed name lookup failing (empty) for program 0
only. -/
def legacyProgPlugin : ProgPlugin :=
  ⟨2, 1, fun i => if i = 0 then "" else "B", fun i => if i = 0 then "A" else "B"⟩

/-- Stated from the (amended) specification: the exhaustive list of
conditions under which `readProgramData` rejects its input — too short,
bad container magic, declared size exceeding the supplied size,
parameter form on a chunk plugin or with a parameter payload larger
than the remaining body, chunk form on a non-chunk plugin or with a
mismatched declared chunk size, or an unknown form magic (size
comparisons in unsigned 64-bit arithmetic, as the code performs
them). -/
def invalidProgramData (p : FxPlugin) (data : List Nat) : Prop :=
  data.length < fxProgramHeaderSize ∨ int32At data 0 ≠ cMagic ∨
  rpdTotalSize data > data.length ∨
  (int32At data 8 = fMagic ∧ (p.hasChunkData = true ∨
    asSizeT (int32At data 24) * 4 % 2 ^ 64 >
      subSizeT (rpdTotalSize data) fxProgramHeaderSize)) ∨
  (int32At data 8 = chunkPresetMagic ∧ (p.hasChunkData = false ∨
    rpdChunkSize data ≠ subSizeT (subSizeT (rpdTotalSize data) fxProgramHeaderSize) 4)) ∨
  (int32At data 8 ≠ fMagic ∧ int32At data 8 ≠ chunkPresetMagic)

instance (p : FxPlugin) (data : List Nat) : Decidable (invalidProgramData p data) := by
  unfold invalidProgramData
  infer_instance

/-- Concrete `VST2Plugin` state: no chunk data, one parameter holding
the 32-bit pattern 7, program name `B`. -/
def demoFxPlugin : FxPlugin :=
  ⟨false, 1, fun _ => 7, [66], [], 0, 0⟩

/-- Accepted parameter-form fxProgram of 56 bytes: byte size 48,
declared parameter count 0, all-zero name field. -/
def cdata56 : List Nat :=
  i32bytes cMagic ++ i32bytes 48 ++ i32bytes fMagic ++ i32bytes 1 ++
    i32bytes 0 ++ i32bytes 0 ++ i32bytes 0 ++ List.replicate 28 0

/-- Parameter-form fxProgram of 60 bytes whose declared parameter
count 0 times 4 is smaller than (not equal to) the 4-byte remaining
body. -/
def cdata60 : List Nat :=
  i32bytes cMagic ++ i32bytes 52 ++ i32bytes fMagic ++ i32bytes 1 ++
    i32bytes 0 ++ i32bytes 0 ++ i32bytes 0 ++ List.replicate 28 0 ++ [0, 0, 0, 0]

/-- Accepted parameter-form fxProgram of 60 bytes with parameter
count 1, name `B` and one parameter pattern 9. -/
def cdataW : List Nat :=
  i32bytes cMagic ++ i32bytes 52 ++ i32bytes fMagic ++ i32bytes 1 ++
    i32bytes 0 ++ i32bytes 0 ++ i32bytes 1 ++ (66 :: List.replicate 27 0) ++ [0, 0, 0, 9]

/-! ## Generic lemmas about the parameter loops -/

theorem mem_busStep_calls {w : World} {st : UGenState} {i : Nat} {c : Call}
    (h : c ∈ (busStep w st i).2) :
    c = Call.setParameter i (readControlBus w (st.paramStates i).bus) := by
  unfold busStep at h
  split at h
  · split at h
    · simpa using h
    · simp at h
  · simp at h

theorem mem_busLoop_calls {w : World} {st : UGenState} {k : Nat} {c : Call}
    (h : c ∈ (busLoop w st k).2) : ∃ i v, c = Call.setParameter i v := by
  induction k with
  | zero => simp [busLoop] at h
  | succ k ih =>
      simp only [busLoop, List.mem_append] at h
      rcases h with h | h
      · exact ih h
      · exact ⟨k, _, mem_busStep_calls h⟩

theorem mem_ugenStep_calls {st : UGenState} {np : Nat} {p : Int × Val} {c : Call}
    (h : c ∈ (ugenStep st np p).2) : c = Call.setParameter p.1.toNat p.2 := by
  unfold ugenStep at h
  split at h
  · simpa using h
  · simp at h

theorem mem_ugenLoop_calls {st : UGenState} {np : Nat} {ps : List (Int × Val)} {c : Call}
    (h : c ∈ (ugenLoop st np ps).2) : ∃ i v, c = Call.setParameter i v := by
  induction ps generalizing st with
  | nil => simp [ugenLoop] at h
  | cons p rest ih =>
      simp only [ugenLoop, List.mem_append] at h
      rcases h with h | h
      · exact ⟨p.1.toNat, p.2, mem_ugenStep_calls h⟩
      · exact ih h

theorem mem_paramLoops_calls {w : World} {st : UGenState} {uctrl : List (Int × Val)} {c : Call}
    (h : c ∈ (paramLoops w st uctrl).2) : ∃ i v, c = Call.setParameter i v := by
  by_cases hp : st.paramAlloc
  · simp only [paramLoops, hp, if_true, List.mem_append] at h
    rcases h with h | h
    · exact mem_busLoop_calls h
    · exact mem_ugenLoop_calls h
  · simp [paramLoops, hp] at h

/-! ## Claim C1: bypass transitions and plugin reset -/

/-- C1, counterexample: with the plugin loaded and the bypass input
switching from on to off, the perform routine issues `suspend` (a
reset) — contradicting the claim that a bypass transition never
triggers a reset. -/
theorem C1_counterexample :
    Call.suspend ∈
      (next demoWorld { demoState with bypassOld := true } false [] [] [] 4).2.1 := by
  decide

/-- C1, amended: the perform routine `next` triggers a reset
(`suspend` then `resume`) exactly when the processing buffer is
allocated, a plugin is loaded, the bypass input is off and the previous
bypass state was on; in particular a transition from off to on never
resets, but a transition from on to off always does. -/
theorem next_eq_of_noBuffer {w : World} {st : UGenState} {bypass : Bool}
    {uctrl : List (Int × Val)} {ins outs : List (List Val)} {n : Nat}
    (h : st.bufAlloc = false) :
    next w st bypass uctrl ins outs n = (st, [], outs) := by
  simp [next, h]

theorem next_calls_processing {w : World} {st : UGenState} {bypass : Bool}
    {uctrl : List (Int × Val)} {ins outs : List (List Val)} {n : Nat}
    (hb : st.bufAlloc = true)
    (hproc : (st.pluginLoaded : Prop) ∧ bypass = false ∧ (st.singlePrec : Prop)) :
    (next w st bypass uctrl ins outs n).2.1 =
      resetCallsOf st bypass ++
        (paramLoops w { st with bypassOld := bypass } uctrl).2 ++ [Call.process n] := by
  unfold next
  rw [if_neg (by simp [hb]), if_pos hproc]

theorem next_calls_bypassed {w : World} {st : UGenState} {bypass : Bool}
    {uctrl : List (Int × Val)} {ins outs : List (List Val)} {n : Nat}
    (hb : st.bufAlloc = true)
    (hproc : ¬((st.pluginLoaded : Prop) ∧ bypass = false ∧ (st.singlePrec : Prop))) :
    (next w st bypass uctrl ins outs n).2.1 = resetCallsOf st bypass := by
  unfold next
  rw [if_neg (by simp [hb]), if_neg hproc]

theorem resetCallsOf_mem_iff (st : UGenState) (bypass : Bool) (c : Call)
    (hc : c = Call.suspend ∨ c = Call.resume) :
    (c ∈ resetCallsOf st bypass ↔
      st.pluginLoaded = true ∧ bypass = false ∧ st.bypassOld = true) := by
  by_cases hr : (st.pluginLoaded : Prop) ∧ bypass = false ∧ bypass ≠ st.bypassOld
  · obtain ⟨h1, h2, h3⟩ := hr
    subst h2
    have hbo : st.bypassOld = true := by
      cases hbo : st.bypassOld
      · exact absurd hbo.symm h3
      · rfl
    rcases hc with hc | hc <;> subst hc <;>
      simp [resetCallsOf, h1, hbo]
  · constructor
    · intro h
      simp [resetCallsOf, if_neg hr] at h
    · rintro ⟨h1, h2, h3⟩
      exact absurd ⟨by simp [h1], h2, by simp [h2, h3]⟩ hr

theorem C1_next_reset_iff (w : World) (st : UGenState) (bypass : Bool)
    (uctrl : List (Int × Val)) (ins outs : List (List Val)) (n : Nat) :
    (Call.suspend ∈ (next w st bypass uctrl ins outs n).2.1 ↔
      st.bufAlloc = true ∧ st.pluginLoaded = true ∧ bypass = false ∧ st.bypassOld = true) ∧
    (Call.resume ∈ (next w st bypass uctrl ins outs n).2.1 ↔
      st.bufAlloc = true ∧ st.pluginLoaded = true ∧ bypass = false ∧ st.bypassOld = true) := by
  have key : ∀ c : Call, c = Call.suspend ∨ c = Call.resume →
      (c ∈ (next w st bypass uctrl ins outs n).2.1 ↔
        st.bufAlloc = true ∧ st.pluginLoaded = true ∧ bypass = false ∧
          st.bypassOld = true) := by
    intro c hc
    by_cases hb : st.bufAlloc = true
    · by_cases hproc : (st.pluginLoaded : Prop) ∧ bypass = false ∧ (st.singlePrec : Prop)
      · rw [next_calls_processing hb hproc]
        simp only [List.mem_append, List.mem_singleton]
        constructor
        · intro h
          rcases h with (h | h) | h
          · exact ⟨hb, (resetCallsOf_mem_iff st bypass c hc).mp h⟩
          · rcases mem_paramLoops_calls h with ⟨i, v, hiv⟩
            rcases hc with hc | hc <;> subst hc <;> simp at hiv
          · rcases hc with hc | hc <;> subst hc <;> exact Call.noConfusion h
        · rintro ⟨_, h2, h3, h4⟩
          exact Or.inl (Or.inl ((resetCallsOf_mem_iff st bypass c hc).mpr ⟨h2, h3, h4⟩))
      · rw [next_calls_bypassed hb hproc]
        constructor
        · intro h
          exact ⟨hb, (resetCallsOf_mem_iff st bypass c hc).mp h⟩
        · rintro ⟨_, h2, h3, h4⟩
          exact (resetCallsOf_mem_iff st bypass c hc).mpr ⟨h2, h3, h4⟩
    · have hb' : st.bufAlloc = false := by simpa using hb
      rw [next_eq_of_noBuffer hb']
      constructor
      · intro h
        simp at h
      · rintro ⟨h1, _⟩
        exact absurd h1 hb
  exact ⟨key Call.suspend (Or.inl rfl), key Call.resume (Or.inr rfl)⟩

/-! ## Claim C4: setParam behaviour -/

/-- C4, counterexample: with a plugin loaded but the SC GUI off and
notification off, an in-range `setParam` reaches the backend yet sends
no parameter reply — contradicting the claim that a reply is always
sent. -/
theorem C4_counterexample :
    Call.setParameter 0 (Val.num 5) ∈ (setParam demoState 0 (Val.num 5)).2.1 ∧
    (setParam demoState 0 (Val.num 5)).2.2 = [] := by
  decide

/-- C4, amended: with a plugin loaded, an in-range `setParam(i, v)`
issues exactly `setParameter(i, v)` to the backend, sets slot `i` to
`(v, NONE)`, leaves every other slot unchanged, and sends a parameter
reply iff the SC GUI is active or parameter-change notification is
enabled; an out-of-range index leaves the state unchanged, issues no
backend call and emits only a warning. -/
theorem C4_setParam_spec (st : UGenState) (index : Int) (v : Val)
    (hpl : st.pluginLoaded = true) :
    (0 ≤ index ∧ index < (st.nparam : Int) →
      (setParam st index v).2.1 = [Call.setParameter index.toNat v] ∧
      (setParam st index v).1.paramStates index.toNat = ⟨v, -1⟩ ∧
      (∀ j, j ≠ index.toNat → (setParam st index v).1.paramStates j = st.paramStates j) ∧
      (setParam st index v).2.2 =
        (if st.gui = GuiType.scGui ∨ st.notify then [Msg.param index.toNat v] else [])) ∧
    (¬(0 ≤ index ∧ index < (st.nparam : Int)) →
      (setParam st index v).1 = st ∧ (setParam st index v).2.1 = [] ∧
      (setParam st index v).2.2 = [Msg.warnOutOfRange]) := by
  have hnp : ¬¬(st.pluginLoaded = true) := by simp [hpl]
  constructor
  · intro hin
    unfold setParam
    rw [if_neg hnp, if_pos hin]
    refine ⟨rfl, ?_, ?_, ?_⟩
    · simp [setParamNewState]
    · intro j hj
      simp [setParamNewState, hj]
    · simp [sendParameterMsgs, setParamNewState]
  · intro hout
    unfold setParam
    rw [if_neg hnp, if_neg hout]
    exact ⟨rfl, rfl, rfl⟩

/-- C4, witness: the amended theorem applied at a concrete in-range and
a concrete out-of-range index. -/
theorem C4_witness :
    (setParam { demoState with notify := true } 1 (Val.num 3)).2.1 =
        [Call.setParameter 1 (Val.num 3)] ∧
    (setParam { demoState with notify := true } 1 (Val.num 3)).2.2 =
        [Msg.param 1 (Val.num 3)] ∧
    (setParam { demoState with notify := true } 9 (Val.num 3)).2.1 = [] := by
  refine ⟨?_, ?_, ?_⟩
  · exact ((C4_setParam_spec { demoState with notify := true } 1 (Val.num 3) rfl).1
      (by decide)).1
  · have h := ((C4_setParam_spec { demoState with notify := true } 1 (Val.num 3) rfl).1
      (by decide)).2.2.2
    simpa using h
  · exact ((C4_setParam_spec { demoState with notify := true } 9 (Val.num 3) rfl).2
      (by decide)).2.1

/-! ## Claim C6: the setn command -/

/-- C6: evaluation of the `setn` command at the failing input — a
plugin with four parameters receiving the triple
`(index 0, count 2, values [3, 7])`.  The code sets parameter 1 twice
(to 3, then 7) because the loop computes `idx = index + 1` instead of
`index + i`; parameter 0 is never written, contradicting the claim
(and the intent visible in the neighbouring `vst_map`, which uses
`index + i`). -/
theorem C6_setn_bug_eval :
    (vstSetnCmd demoState [(0, [Val.num 3, Val.num 7])]).2.1 =
        [Call.setParameter 1 (Val.num 3), Call.setParameter 1 (Val.num 7)] ∧
    (vstSetnCmd demoState [(0, [Val.num 3, Val.num 7])]).1.paramStates 0 =
        ⟨Val.num 0, -1⟩ ∧
    (vstSetnCmd demoState [(0, [Val.num 3, Val.num 7])]).1.paramStates 1 =
        ⟨Val.num 7, -1⟩ := by
  decide

/-! ## Claim C7: listener thread routing of MIDI and sysex events -/

/-- C7, counterexample: a MIDI or sysex callback arriving on the GUI
thread is dropped, not pushed onto the event inbox as the claim
states. -/
theorem C7_counterexample :
    midiEventAction CbThread.gui = EventAction.dropped ∧
    sysexEventAction CbThread.gui = EventAction.dropped ∧
    EventAction.dropped ≠ EventAction.pushInbox := by
  decide

/-- C7, amended: MIDI and sysex callbacks are emitted inline when they
arrive on the audio thread and are ignored from every other thread
(GUI or worker); only parameter-automation callbacks are pushed onto
the mutex-protected queue. -/
theorem C7_event_routing :
    midiEventAction CbThread.audio = EventAction.emitInline ∧
    midiEventAction CbThread.gui = EventAction.dropped ∧
    midiEventAction CbThread.worker = EventAction.dropped ∧
    sysexEventAction CbThread.audio = EventAction.emitInline ∧
    sysexEventAction CbThread.gui = EventAction.dropped ∧
    sysexEventAction CbThread.worker = EventAction.dropped ∧
    parameterAutomatedAction CbThread.gui = EventAction.pushInbox := by
  decide

/-! ## Claim C8: perform routine without an allocated buffer -/

/-- C8, counterexample: with no processing buffer allocated, `next`
leaves a previously non-zero output sample untouched, so the block is
not silence. -/
theorem C8_counterexample :
    (next demoWorld { demoState with bufAlloc := false } false [] []
        [[Val.num 5]] 4).2.2 = [[Val.num 5]] ∧
    Val.num 5 ≠ Val.num 0 := by
  decide

/-- C8, amended: when no processing buffer is allocated, `next` returns
immediately: the state is unchanged, no backend call is made and the
output channels keep their previous contents (they are not zeroed). -/
theorem C8_next_noBuffer (w : World) (st : UGenState) (bypass : Bool)
    (uctrl : List (Int × Val)) (ins outs : List (List Val)) (n : Nat)
    (h : st.bufAlloc = false) :
    next w st bypass uctrl ins outs n = (st, [], outs) := by
  simp [next, h]

/-- C8, witness: the amended theorem applied at a concrete state with
no allocated buffer. -/
theorem C8_witness :
    next demoWorld { demoState with bufAlloc := false } false [] [] [[Val.num 5]] 4 =
      ({ demoState with bufAlloc := false }, [], [[Val.num 5]]) :=
  C8_next_noBuffer demoWorld { demoState with bufAlloc := false } false [] [] [[Val.num 5]] 4 rfl

/-! ## Claim C9: draining the parameter-automation queue -/

/-- C9, counterexample: while another thread holds the queue mutex the
audio-thread drain blocks, because it uses a blocking `lock_guard`
rather than the claimed `try_lock`. -/
theorem C9_counterexample :
    drainParamQueue true [(0, Val.num 1)] = DrainResult.blocked ∧
    drainLock = LockKind.blocking := by
  decide

/-- C9, amended: both the audio-thread drain and the GUI-thread
producer take the queue mutex with a blocking lock; hence the drain
blocks whenever the mutex is held by another thread, and when the mutex
is free it drains the whole queue. -/
theorem C9_drain_spec :
    drainLock = LockKind.blocking ∧ producerLock = LockKind.blocking ∧
    (∀ q : List (Nat × Val), drainParamQueue false q = DrainResult.drained q) ∧
    (∀ q : List (Nat × Val), drainParamQueue true q = DrainResult.blocked) :=
  ⟨rfl, rfl, fun _ => rfl, fun _ => rfl⟩

/-! ## Claim C5: bus-mapped parameter updates in the perform routine -/

theorem busStep_paramStates (w : World) (st : UGenState) (i j : Nat) :
    (busStep w st i).1.paramStates j =
      if j = i then busSlotNew w (st.paramStates i) else st.paramStates j := by
  unfold busStep busSlotNew
  split
  · split
    · by_cases hj : j = i <;> simp [hj]
    · by_cases hj : j = i <;> simp [hj]
  · by_cases hj : j = i <;> simp [hj]

theorem busStep_calls_eq (w : World) (st : UGenState) (i : Nat) :
    (busStep w st i).2 =
      if 0 ≤ (st.paramStates i).bus ∧
          vne (readControlBus w (st.paramStates i).bus) (st.paramStates i).value = true then
        [Call.setParameter i (readControlBus w (st.paramStates i).bus)]
      else [] := by
  unfold busStep
  split
  · split
    · next h1 h2 => simp [h1, h2]
    · next h1 h2 => simp [h1, h2]
  · next h1 => simp [h1]

theorem busLoop_paramStates (w : World) (st : UGenState) (k j : Nat) :
    (busLoop w st k).1.paramStates j =
      if j < k then busSlotNew w (st.paramStates j) else st.paramStates j := by
  induction k with
  | zero => simp [busLoop]
  | succ k ih =>
      simp only [busLoop]
      rw [busStep_paramStates]
      by_cases hj : j = k
      · subst hj
        rw [if_pos rfl, ih, if_neg (lt_irrefl j), if_pos (Nat.lt_succ_self j)]
      · rw [if_neg hj, ih]
        by_cases hlt : j < k
        · rw [if_pos hlt, if_pos (Nat.lt_succ_of_lt hlt)]
        · rw [if_neg hlt, if_neg (by omega)]

theorem busLoop_mem_calls (w : World) (st : UGenState) (k i : Nat) (v : Val) :
    Call.setParameter i v ∈ (busLoop w st k).2 ↔
      i < k ∧ 0 ≤ (st.paramStates i).bus ∧
        vne (readControlBus w (st.paramStates i).bus) (st.paramStates i).value = true ∧
        v = readControlBus w (st.paramStates i).bus := by
  induction k with
  | zero => simp [busLoop]
  | succ k ih =>
      simp only [busLoop, List.mem_append]
      rw [ih, busStep_calls_eq, busLoop_paramStates, if_neg (lt_irrefl k)]
      constructor
      · intro h
        rcases h with ⟨h1, h⟩ | h
        · exact ⟨Nat.lt_succ_of_lt h1, h⟩
        · split at h
          · next hcond =>
              simp only [List.mem_singleton, Call.setParameter.injEq] at h
              obtain ⟨hik, hv⟩ := h
              subst hik
              exact ⟨Nat.lt_succ_self _, hcond.1, hcond.2, hv⟩
          · simp at h
      · rintro ⟨h1, h2, h3, h4⟩
        by_cases hik : i < k
        · exact Or.inl ⟨hik, h2, h3, h4⟩
        · have hik' : i = k := by omega
          subst hik'
          refine Or.inr ?_
          rw [if_pos ⟨h2, h3⟩]
          simp [h4]

theorem setParameter_notin_resetCallsOf (st : UGenState) (bypass : Bool) (i : Nat) (v : Val) :
    Call.setParameter i v ∉ resetCallsOf st bypass := by
  unfold resetCallsOf
  split <;> simp

theorem ugenStep_mapped_untouched {st : UGenState} {np : Nat} {p : Int × Val} {i : Nat}
    (h : 0 ≤ (st.paramStates i).bus) :
    (ugenStep st np p).1.paramStates i = st.paramStates i ∧
      ∀ v, Call.setParameter i v ∉ (ugenStep st np p).2 := by
  unfold ugenStep
  split
  · next hcond =>
      have hne : p.1.toNat ≠ i := by
        intro he
        rw [he] at hcond
        omega
      have hne' : i ≠ p.1.toNat := fun he => hne he.symm
      constructor
      · simp [hne']
      · intro v hv
        simp only [List.mem_singleton, Call.setParameter.injEq] at hv
        exact hne' hv.1
  · exact ⟨rfl, by simp⟩

theorem ugenLoop_mapped_untouched {np : Nat} {ps : List (Int × Val)} {st : UGenState} {i : Nat}
    (h : 0 ≤ (st.paramStates i).bus) :
    (ugenLoop st np ps).1.paramStates i = st.paramStates i ∧
      ∀ v, Call.setParameter i v ∉ (ugenLoop st np ps).2 := by
  induction ps generalizing st with
  | nil => exact ⟨rfl, by simp [ugenLoop]⟩
  | cons p rest ih =>
      obtain ⟨hstep, hcall⟩ := @ugenStep_mapped_untouched st np p i h
      have h2 : 0 ≤ ((ugenStep st np p).1.paramStates i).bus := by rw [hstep]; exact h
      obtain ⟨hrest, hrcall⟩ := ih h2
      refine ⟨by simp only [ugenLoop]; rw [hrest, hstep], ?_⟩
      intro v hv
      simp only [ugenLoop, List.mem_append] at hv
      rcases hv with hv | hv
      · exact hcall v hv
      · exact hrcall v hv

/-- C5: after `mapParam(i, bus)` maps parameter `i` to a valid control
bus, a processing block (plugin loaded, buffer and parameter table
allocated, single precision, bypass off) calls `setParameter(i, v)`
with the current bus value `v` if and only if `v` differs (IEEE `!=`)
from the slot's last value; in that case the slot's last value becomes
`v`, otherwise the slot is unchanged, and the bus mapping survives the
block either way. -/
theorem C5_mapped_param_update (w : World) (st : UGenState)
    (uctrl : List (Int × Val)) (ins outs : List (List Val)) (n : Nat) (i : Nat) (bus : Int)
    (hb : st.bufAlloc = true) (hpl : st.pluginLoaded = true) (hsp : st.singlePrec = true)
    (hpa : st.paramAlloc = true) (hi : i < st.nparam)
    (hb0 : 0 ≤ bus) (hbm : bus < (w.numControlBusChannels : Int)) :
    (Call.setParameter i (w.controlBus bus.toNat) ∈
        (next w (mapParam st (i : Int) bus).1 false uctrl ins outs n).2.1 ↔
      vne (w.controlBus bus.toNat) (st.paramStates i).value = true) ∧
    ((next w (mapParam st (i : Int) bus).1 false uctrl ins outs n).1.paramStates i =
      if vne (w.controlBus bus.toNat) (st.paramStates i).value then
        ⟨w.controlBus bus.toNat, bus⟩
      else ⟨(st.paramStates i).value, bus⟩) := by
  have hnp : ¬¬(st.pluginLoaded = true) := by simp [hpl]
  have hmap : (mapParam st (i : Int) bus).1 =
      { st with paramStates := fun j =>
          if j = i then ⟨(st.paramStates j).value, bus⟩ else st.paramStates j } := by
    unfold mapParam
    rw [if_neg hnp, if_pos ⟨Int.ofNat_nonneg i, by exact_mod_cast hi⟩]
    simp
  set st' := (mapParam st (i : Int) bus).1 with hst'
  have hfields : st'.bufAlloc = true ∧ st'.pluginLoaded = true ∧ st'.singlePrec = true ∧
      st'.paramAlloc = true ∧ st'.nparam = st.nparam := by
    rw [hmap]
    exact ⟨hb, hpl, hsp, hpa, rfl⟩
  have hslot : st'.paramStates i = ⟨(st.paramStates i).value, bus⟩ := by
    rw [hmap]; simp
  have hread : readControlBus w bus = w.controlBus bus.toNat := by
    unfold readControlBus
    rw [if_pos ⟨hb0, hbm⟩]
  have hcalls := @next_calls_processing w st' false uctrl ins outs n hfields.1
    ⟨by simp [hfields.2.1], rfl, by simp [hfields.2.2.1]⟩
  have hstate : (next w st' false uctrl ins outs n).1 =
      (paramLoops w { st' with bypassOld := false } uctrl).1 := by
    unfold next
    rw [if_neg (by simp [hfields.1]),
      if_pos (⟨by simp [hfields.2.1], rfl, by simp [hfields.2.2.1]⟩ :
        (st'.pluginLoaded : Prop) ∧ false = false ∧ (st'.singlePrec : Prop))]
  set st2 := { st' with bypassOld := false } with hst2
  have hst2slot : st2.paramStates i = ⟨(st.paramStates i).value, bus⟩ := hslot
  have hst2np : st2.nparam = st.nparam := hfields.2.2.2.2
  have hst2pa : st2.paramAlloc = true := hfields.2.2.2.1
  have hploops : paramLoops w st2 uctrl =
      ((ugenLoop (busLoop w st2 st2.nparam).1 st2.nparam uctrl).1,
        (busLoop w st2 st2.nparam).2 ++
          (ugenLoop (busLoop w st2 st2.nparam).1 st2.nparam uctrl).2) := by
    unfold paramLoops
    rw [if_pos hst2pa]
  have hbusSlot : (busLoop w st2 st2.nparam).1.paramStates i =
      busSlotNew w ⟨(st.paramStates i).value, bus⟩ := by
    rw [busLoop_paramStates, if_pos (by rw [hst2np]; exact hi), hst2slot]
  have hbusNewVal : busSlotNew w ⟨(st.paramStates i).value, bus⟩ =
      if vne (w.controlBus bus.toNat) (st.paramStates i).value then
        ⟨w.controlBus bus.toNat, bus⟩
      else ⟨(st.paramStates i).value, bus⟩ := by
    unfold busSlotNew
    rw [if_pos hb0]
    simp only [hread]
  have hbusge : 0 ≤ ((busLoop w st2 st2.nparam).1.paramStates i).bus := by
    rw [hbusSlot, hbusNewVal]
    split <;> exact hb0
  obtain ⟨hug_state, hug_calls⟩ :=
    @ugenLoop_mapped_untouched st2.nparam uctrl (busLoop w st2 st2.nparam).1 i hbusge
  constructor
  · rw [hcalls]
    simp only [List.mem_append, List.mem_singleton]
    constructor
    · intro h
      rcases h with (h | h) | h
      · exact absurd h (setParameter_notin_resetCallsOf st' false i _)
      · rw [hploops] at h
        simp only [List.mem_append] at h
        rcases h with h | h
        · have hm := (busLoop_mem_calls w st2 st2.nparam i (w.controlBus bus.toNat)).mp h
          rw [hst2slot] at hm
          simpa [hread] using hm.2.2.1
        · exact absurd h (hug_calls _)
      · exact Call.noConfusion h
    · intro h
      refine Or.inl (Or.inr ?_)
      rw [hploops]
      simp only [List.mem_append]
      refine Or.inl ?_
      rw [busLoop_mem_calls, hst2slot]
      exact ⟨by rw [hst2np]; exact hi, hb0, by simpa [hread] using h, hread.symm⟩
  · rw [hstate, hploops]
    simp only
    rw [hug_state, hbusSlot, hbusNewVal]

/-- C5, witness: a concrete block with parameter 0 mapped to control
bus 1 (holding 11.0, different from the slot value 0.0) makes the
backend receive `setParameter(0, 11.0)`. -/
theorem C5_witness :
    Call.setParameter 0 (demoWorld.controlBus (1 : Int).toNat) ∈
      (next demoWorld (mapParam demoState (0 : Int) 1).1 false [] [] [] 4).2.1 :=
  (C5_mapped_param_update demoWorld demoState [] [] [] 4 0 1 rfl rfl rfl rfl
    (by decide) (by decide) (by decide)).1.mpr (by decide)

/-! ## Claim C10: program-name enumeration and the current program -/

/-- C10: evaluation at the failing input.  Enumerating the two program
names of `legacyProgPlugin` switches to program 0 (whose indexed lookup
fails) but never restores program 1, because the `changed` flag is
overwritten by the last iteration, whose indexed lookup succeeds; the
`if (changed) setProgram(current)` restore is skipped even though a
switch happened. -/
theorem C10_restore_skipped :
    (sendProgramNames legacyProgPlugin).1.current = 0 ∧
    legacyProgPlugin.current = 1 := by
  decide

/-! ## Byte-level lemmas for the preset codec -/

theorem i32bytes_length (x : Int) : (i32bytes x).length = 4 := rfl

theorem fxHeaderBytes_length (a b c d e : Int) : (fxHeaderBytes a b c d e).length = 28 := by
  simp [fxHeaderBytes, i32bytes]

theorem nameField_length (s : List Nat) : (nameField s).length = 28 := by
  have h : (s.take 27).length ≤ 27 := by
    simp [List.length_take]
  simp only [nameField, List.length_append, List.length_replicate]
  omega

theorem drop_append_length {α : Type} (l1 l2 : List α) (n : Nat) (h : l1.length = n) :
    (l1 ++ l2).drop n = l2 := by
  subst h
  exact List.drop_left l1 l2

theorem byteAt_lt (d : List Nat) (i : Nat) : byteAt d i < 256 :=
  Nat.mod_lt _ (by norm_num)

theorem word32At_lt (d : List Nat) (i : Nat) : word32At d i < 2 ^ 32 := by
  have h0 := byteAt_lt d i
  have h1 := byteAt_lt d (i + 1)
  have h2 := byteAt_lt d (i + 2)
  have h3 := byteAt_lt d (i + 3)
  unfold word32At
  have e24 : (2 : Nat) ^ 24 = 16777216 := by norm_num
  have e16 : (2 : Nat) ^ 16 = 65536 := by norm_num
  have e8 : (2 : Nat) ^ 8 = 256 := by norm_num
  have e32 : (2 : Nat) ^ 32 = 4294967296 := by norm_num
  rw [e24, e16, e8, e32]
  omega

theorem word32At_cons4 (a b c d : Nat) (rest : List Nat) :
    word32At (a :: b :: c :: d :: rest) 0 =
      a % 256 * 2 ^ 24 + b % 256 * 2 ^ 16 + c % 256 * 2 ^ 8 + d % 256 := rfl

theorem word32At_w32bytes (v : Nat) (rest : List Nat) :
    word32At (w32bytes v ++ rest) 0 = v % 2 ^ 32 := by
  refine Eq.trans
    (word32At_cons4 (v / 2 ^ 24 % 256) (v / 2 ^ 16 % 256) (v / 2 ^ 8 % 256) (v % 256) rest) ?_
  have e24 : (2 : Nat) ^ 24 = 16777216 := by norm_num
  have e16 : (2 : Nat) ^ 16 = 65536 := by norm_num
  have e8 : (2 : Nat) ^ 8 = 256 := by norm_num
  have e32 : (2 : Nat) ^ 32 = 4294967296 := by norm_num
  rw [e24, e16, e8, e32]
  omega

theorem w32bytes_append_drop4 (v : Nat) (rest : List Nat) :
    (w32bytes v ++ rest).drop 4 = rest := rfl

theorem takeWords_length : ∀ (k : Nat) (bs : List Nat), (takeWords k bs).length = k
  | 0, _ => rfl
  | Nat.succ k, bs => by
      show (word32At bs 0 :: takeWords k (bs.drop 4)).length = k + 1
      simp [takeWords_length k]

theorem takeWords_lt (k : Nat) (bs : List Nat) : ∀ x ∈ takeWords k bs, x < 2 ^ 32 := by
  induction k generalizing bs with
  | zero => simp [takeWords]
  | succ k ih =>
      intro x hx
      rcases List.mem_cons.mp hx with h | h
      · subst h
        exact word32At_lt bs 0
      · exact ih (bs.drop 4) x h

theorem takeWords_encodeParams (p : FxPlugin) :
    ∀ (k i : Nat),
      takeWords k (encodeParams p i k) =
        (List.range k).map (fun j => p.params (i + j) % 2 ^ 32) := by
  intro k
  induction k with
  | zero => intro i; rfl
  | succ k ih =>
      intro i
      show word32At (w32bytes (p.params i) ++ encodeParams p (i + 1) k) 0 ::
          takeWords k ((w32bytes (p.params i) ++ encodeParams p (i + 1) k).drop 4) = _
      rw [word32At_w32bytes, w32bytes_append_drop4, ih (i + 1), List.range_succ_eq_map]
      simp only [List.map_cons, List.map_map, Nat.add_zero]
      congr 1
      apply List.map_congr_left
      intro j _
      simp only [Function.comp_apply]
      congr 2
      omega

theorem range_map_getD (l : List Nat) :
    (List.range l.length).map (fun j => l.getD j 0) = l := by
  induction l with
  | nil => rfl
  | cons a t ih =>
      show (List.range (t.length + 1)).map _ = a :: t
      rw [List.range_succ_eq_map]
      simp only [List.map_cons, List.getD_cons_zero, List.map_map]
      congr 1

theorem spfb_fields :
    ∀ (k : Nat) (p : FxPlugin) (bs : List Nat) (i : Nat),
      (setParamsFromBytes p bs i k).hasChunkData = p.hasChunkData ∧
      (setParamsFromBytes p bs i k).numParams = p.numParams ∧
      (setParamsFromBytes p bs i k).progName = p.progName ∧
      (setParamsFromBytes p bs i k).chunk = p.chunk ∧
      (setParamsFromBytes p bs i k).uniqueID = p.uniqueID ∧
      (setParamsFromBytes p bs i k).version = p.version
  | 0, _, _, _ => ⟨rfl, rfl, rfl, rfl, rfl, rfl⟩
  | Nat.succ k, p, bs, i =>
      spfb_fields k (fxSetParameter p i (word32At bs 0)) (bs.drop 4) (i + 1)

theorem spfb_params_lt :
    ∀ (k : Nat) (p : FxPlugin) (bs : List Nat) (i m : Nat), m < i →
      (setParamsFromBytes p bs i k).params m = p.params m := by
  intro k
  induction k with
  | zero => intro p bs i m _; rfl
  | succ k ih =>
      intro p bs i m hm
      show (setParamsFromBytes (fxSetParameter p i (word32At bs 0)) (bs.drop 4) (i + 1) k).params m
        = p.params m
      rw [ih _ _ _ _ (Nat.lt_succ_of_lt hm)]
      simp [fxSetParameter, Nat.ne_of_lt hm]

theorem spfb_params_char :
    ∀ (k : Nat) (p : FxPlugin) (bs : List Nat) (i j : Nat),
      (setParamsFromBytes p bs i k).params (i + j) =
        if j < k then (takeWords k bs).getD j 0 else p.params (i + j) := by
  intro k
  induction k with
  | zero => intro p bs i j; simp [setParamsFromBytes]
  | succ k ih =>
      intro p bs i j
      show (setParamsFromBytes (fxSetParameter p i (word32At bs 0)) (bs.drop 4) (i + 1) k).params
          (i + j) = _
      cases j with
      | zero =>
          simp only [Nat.add_zero]
          rw [spfb_params_lt k _ _ (i + 1) i (by omega)]
          simp [fxSetParameter, takeWords]
      | succ j =>
          rw [show i + (j + 1) = (i + 1) + j by omega, ih (fxSetParameter p i (word32At bs 0))
            (bs.drop 4) (i + 1) j]
          by_cases hj : j < k
          · rw [if_pos hj, if_pos (by omega)]
            rfl
          · rw [if_neg hj, if_neg (by omega)]
            simp [fxSetParameter, show (i + 1) + j ≠ i by omega, show i + 1 + j = i + (j + 1) by omega]

theorem mem_takeWhile_and {α : Type} (q : α → Bool) :
    ∀ (l : List α) (b : α), b ∈ l.takeWhile q → b ∈ l ∧ q b = true := by
  intro l
  induction l with
  | nil => simp [List.takeWhile]
  | cons a t ih =>
      intro b hb
      by_cases ha : q a = true
      · rw [show (a :: t).takeWhile q = a :: t.takeWhile q by simp [List.takeWhile_cons, ha]] at hb
        rcases List.mem_cons.mp hb with h | h
        · subst h
          exact ⟨List.mem_cons_self b t, ha⟩
        · obtain ⟨h1, h2⟩ := ih b h
          exact ⟨List.mem_cons_of_mem a h1, h2⟩
      · rw [show (a :: t).takeWhile q = [] by
          simp [List.takeWhile_cons, Bool.eq_false_iff.mpr ha]] at hb
        simp at hb

theorem takeWhile_append_of_all {α : Type} (q : α → Bool) :
    ∀ (l l' : List α), (∀ x ∈ l, q x = true) →
      (l ++ l').takeWhile q = l ++ l'.takeWhile q := by
  intro l
  induction l with
  | nil => intro l' _; rfl
  | cons a t ih =>
      intro l' h
      have ha : q a = true := h a (List.mem_cons_self a t)
      show ((a :: (t ++ l')).takeWhile q) = a :: (t ++ l'.takeWhile q)
      rw [show (a :: (t ++ l')).takeWhile q = a :: (t ++ l').takeWhile q by
        simp [List.takeWhile_cons, ha]]
      rw [ih l' (fun x hx => h x (List.mem_cons_of_mem a hx))]

theorem map_mod256_eq_self : ∀ (l : List Nat), (∀ b ∈ l, b < 256) → l.map (· % 256) = l := by
  intro l
  induction l with
  | nil => intro _; rfl
  | cons a t ih =>
      intro h
      simp only [List.map_cons]
      rw [Nat.mod_eq_of_lt (h a (List.mem_cons_self a t)),
        ih (fun b hb => h b (List.mem_cons_of_mem a hb))]

theorem mem_cstrAt (d : List Nat) (off : Nat) : ∀ b ∈ cstrAt d off, b < 256 ∧ b ≠ 0 := by
  intro b hb
  obtain ⟨h1, h2⟩ := mem_takeWhile_and _ _ b hb
  constructor
  · rcases List.mem_map.mp h1 with ⟨x, _, hx⟩
    rw [← hx]
    exact Nat.mod_lt _ (by norm_num)
  · simpa using h2

theorem cstr_of_nameField (s tail : List Nat) (hlen : s.length ≤ 27)
    (hmem : ∀ b ∈ s, b < 256 ∧ b ≠ 0) :
    ((nameField s ++ tail).map (· % 256)).takeWhile (· ≠ 0) = s := by
  have htake : s.take 27 = s := List.take_of_length_le hlen
  have hname : nameField s = s ++ List.replicate (28 - s.length) 0 := by
    unfold nameField
    rw [htake]
  obtain ⟨m, hm⟩ : ∃ m, 28 - s.length = m + 1 := ⟨27 - s.length, by omega⟩
  rw [hname, hm, List.append_assoc, List.map_append,
    map_mod256_eq_self s (fun b hb => (hmem b hb).1),
    takeWhile_append_of_all _ s _ (fun x hx => by simpa using (hmem x hx).2)]
  rw [List.replicate_succ]
  simp [List.takeWhile_cons]

theorem cstrAt_def (d : List Nat) (off : Nat) :
    cstrAt d off = ((d.drop off).map (· % 256)).takeWhile (· ≠ 0) := rfl

/-! ## Characterisation of `readProgramData` -/

theorem rpd_eq_short {p : FxPlugin} {data : List Nat}
    (h1 : data.length < fxProgramHeaderSize) :
    readProgramData p data = (false, p) := by
  unfold readProgramData
  rw [if_pos h1]

theorem rpd_eq_badMagic {p : FxPlugin} {data : List Nat}
    (h1 : ¬data.length < fxProgramHeaderSize) (h2 : int32At data 0 ≠ cMagic) :
    readProgramData p data = (false, p) := by
  unfold readProgramData
  rw [if_neg h1, if_pos h2]

theorem rpd_eq_tooSmall {p : FxPlugin} {data : List Nat}
    (h1 : ¬data.length < fxProgramHeaderSize) (h2 : int32At data 0 = cMagic)
    (h3 : rpdTotalSize data > data.length) :
    readProgramData p data = (false, p) := by
  unfold readProgramData
  rw [if_neg h1, if_neg (by simp [h2]), if_pos h3]

theorem rpd_eq_param_chunkPlugin {p : FxPlugin} {data : List Nat}
    (h1 : ¬data.length < fxProgramHeaderSize) (h2 : int32At data 0 = cMagic)
    (h3 : ¬rpdTotalSize data > data.length) (h4 : int32At data 8 = fMagic)
    (h5 : p.hasChunkData = true) :
    readProgramData p data = (false, p) := by
  unfold readProgramData
  rw [if_neg h1, if_neg (by simp [h2]), if_neg h3, if_pos h4, if_pos h5]

theorem rpd_eq_param_badCount {p : FxPlugin} {data : List Nat}
    (h1 : ¬data.length < fxProgramHeaderSize) (h2 : int32At data 0 = cMagic)
    (h3 : ¬rpdTotalSize data > data.length) (h4 : int32At data 8 = fMagic)
    (h5 : p.hasChunkData = false)
    (h6 : asSizeT (int32At data 24) * 4 % 2 ^ 64 >
      subSizeT (rpdTotalSize data) fxProgramHeaderSize) :
    readProgramData p data = (false, p) := by
  unfold readProgramData
  rw [if_neg h1, if_neg (by simp [h2]), if_neg h3, if_pos h4, if_neg (by simp [h5]), if_pos h6]

theorem rpd_eq_param_accept {p : FxPlugin} {data : List Nat}
    (h1 : ¬data.length < fxProgramHeaderSize) (h2 : int32At data 0 = cMagic)
    (h3 : ¬rpdTotalSize data > data.length) (h4 : int32At data 8 = fMagic)
    (h5 : p.hasChunkData = false)
    (h6 : ¬asSizeT (int32At data 24) * 4 % 2 ^ 64 >
      subSizeT (rpdTotalSize data) fxProgramHeaderSize) :
    readProgramData p data =
      (true, setParamsFromBytes { p with progName := cstrAt data 28 }
        (data.drop fxProgramHeaderSize) 0 (int32At data 24).toNat) := by
  unfold readProgramData
  rw [if_neg h1, if_neg (by simp [h2]), if_neg h3, if_pos h4, if_neg (by simp [h5]), if_neg h6]

theorem rpd_eq_chunk_nonChunkPlugin {p : FxPlugin} {data : List Nat}
    (h1 : ¬data.length < fxProgramHeaderSize) (h2 : int32At data 0 = cMagic)
    (h3 : ¬rpdTotalSize data > data.length) (h4 : int32At data 8 ≠ fMagic)
    (h7 : int32At data 8 = chunkPresetMagic) (h5 : p.hasChunkData = false) :
    readProgramData p data = (false, p) := by
  unfold readProgramData
  rw [if_neg h1, if_neg (by simp [h2]), if_neg h3, if_neg h4, if_pos h7, if_pos (by simp [h5])]

theorem rpd_eq_chunk_badSize {p : FxPlugin} {data : List Nat}
    (h1 : ¬data.length < fxProgramHeaderSize) (h2 : int32At data 0 = cMagic)
    (h3 : ¬rpdTotalSize data > data.length) (h4 : int32At data 8 ≠ fMagic)
    (h7 : int32At data 8 = chunkPresetMagic) (h5 : p.hasChunkData = true)
    (h8 : rpdChunkSize data ≠
      subSizeT (subSizeT (rpdTotalSize data) fxProgramHeaderSize) 4) :
    readProgramData p data = (false, p) := by
  unfold readProgramData
  rw [if_neg h1, if_neg (by simp [h2]), if_neg h3, if_neg h4, if_pos h7,
    if_neg (by simp [h5]), if_pos h8]

theorem rpd_eq_chunk_accept {p : FxPlugin} {data : List Nat}
    (h1 : ¬data.length < fxProgramHeaderSize) (h2 : int32At data 0 = cMagic)
    (h3 : ¬rpdTotalSize data > data.length) (h4 : int32At data 8 ≠ fMagic)
    (h7 : int32At data 8 = chunkPresetMagic) (h5 : p.hasChunkData = true)
    (h8 : ¬rpdChunkSize data ≠
      subSizeT (subSizeT (rpdTotalSize data) fxProgramHeaderSize) 4) :
    readProgramData p data =
      (true, { p with progName := cstrAt data 28,
                      chunk := ((data.drop 60).take (rpdChunkSize data)).map (· % 256) }) := by
  unfold readProgramData
  rw [if_neg h1, if_neg (by simp [h2]), if_neg h3, if_neg h4, if_pos h7,
    if_neg (by simp [h5]), if_neg h8]

theorem rpd_eq_unknownMagic {p : FxPlugin} {data : List Nat}
    (h1 : ¬data.length < fxProgramHeaderSize) (h2 : int32At data 0 = cMagic)
    (h3 : ¬rpdTotalSize data > data.length) (h4 : int32At data 8 ≠ fMagic)
    (h7 : int32At data 8 ≠ chunkPresetMagic) :
    readProgramData p data = (false, p) := by
  unfold readProgramData
  rw [if_neg h1, if_neg (by simp [h2]), if_neg h3, if_neg h4, if_neg h7]

theorem fMagic_ne_chunkPresetMagic : fMagic ≠ chunkPresetMagic := by decide

theorem rpd_cascade (p : FxPlugin) (data : List Nat) :
    ((readProgramData p data).1 = false ↔ invalidProgramData p data) ∧
    ((readProgramData p data).1 = false → (readProgramData p data).2 = p) ∧
    ((readProgramData p data).1 = true → int32At data 8 = fMagic →
      readProgramData p data =
        (true, setParamsFromBytes { p with progName := cstrAt data 28 }
          (data.drop fxProgramHeaderSize) 0 (int32At data 24).toNat)) ∧
    ((readProgramData p data).1 = true → int32At data 8 = chunkPresetMagic →
      readProgramData p data =
        (true, { p with progName := cstrAt data 28,
                        chunk := ((data.drop 60).take (rpdChunkSize data)).map (· % 256) })) := by
  have hfc := fMagic_ne_chunkPresetMagic
  by_cases h1 : data.length < fxProgramHeaderSize
  · rw [rpd_eq_short h1]
    exact ⟨iff_of_true rfl (Or.inl h1), fun _ => rfl,
      fun hx => absurd hx (by simp), fun hx => absurd hx (by simp)⟩
  by_cases h2 : int32At data 0 = cMagic
  swap
  · rw [rpd_eq_badMagic h1 h2]
    exact ⟨iff_of_true rfl (Or.inr (Or.inl h2)), fun _ => rfl,
      fun hx => absurd hx (by simp), fun hx => absurd hx (by simp)⟩
  by_cases h3 : rpdTotalSize data > data.length
  · rw [rpd_eq_tooSmall h1 h2 h3]
    exact ⟨iff_of_true rfl (Or.inr (Or.inr (Or.inl h3))), fun _ => rfl,
      fun hx => absurd hx (by simp), fun hx => absurd hx (by simp)⟩
  by_cases h4 : int32At data 8 = fMagic
  · by_cases h5 : p.hasChunkData = true
    · rw [rpd_eq_param_chunkPlugin h1 h2 h3 h4 h5]
      exact ⟨iff_of_true rfl (Or.inr (Or.inr (Or.inr (Or.inl ⟨h4, Or.inl h5⟩)))), fun _ => rfl,
        fun hx => absurd hx (by simp), fun hx => absurd hx (by simp)⟩
    have h5' : p.hasChunkData = false := by simpa using h5
    by_cases h6 : asSizeT (int32At data 24) * 4 % 2 ^ 64 >
        subSizeT (rpdTotalSize data) fxProgramHeaderSize
    · rw [rpd_eq_param_badCount h1 h2 h3 h4 h5' h6]
      exact ⟨iff_of_true rfl (Or.inr (Or.inr (Or.inr (Or.inl ⟨h4, Or.inr h6⟩)))), fun _ => rfl,
        fun hx => absurd hx (by simp), fun hx => absurd hx (by simp)⟩
    · rw [rpd_eq_param_accept h1 h2 h3 h4 h5' h6]
      refine ⟨iff_of_false (by simp) ?_, fun hx => absurd hx (by simp), fun _ _ => rfl,
        fun _ hcp => absurd (h4.symm.trans hcp) hfc⟩
      intro hx
      rcases hx with hx | hx | hx | ⟨_, hx | hx⟩ | ⟨hx, _⟩ | ⟨hx, _⟩
      · exact h1 hx
      · exact hx h2
      · exact h3 hx
      · exact absurd hx (by simp [h5'])
      · exact h6 hx
      · exact hfc (h4.symm.trans hx)
      · exact hx h4
  · by_cases h7 : int32At data 8 = chunkPresetMagic
    · by_cases h5 : p.hasChunkData = true
      swap
      · have h5' : p.hasChunkData = false := by simpa using h5
        rw [rpd_eq_chunk_nonChunkPlugin h1 h2 h3 h4 h7 h5']
        exact ⟨iff_of_true rfl
            (Or.inr (Or.inr (Or.inr (Or.inr (Or.inl ⟨h7, Or.inl h5'⟩))))), fun _ => rfl,
          fun hx => absurd hx (by simp), fun hx => absurd hx (by simp)⟩
      by_cases h8 : rpdChunkSize data ≠
          subSizeT (subSizeT (rpdTotalSize data) fxProgramHeaderSize) 4
      · rw [rpd_eq_chunk_badSize h1 h2 h3 h4 h7 h5 h8]
        exact ⟨iff_of_true rfl
            (Or.inr (Or.inr (Or.inr (Or.inr (Or.inl ⟨h7, Or.inr h8⟩))))), fun _ => rfl,
          fun hx => absurd hx (by simp), fun hx => absurd hx (by simp)⟩
      · rw [rpd_eq_chunk_accept h1 h2 h3 h4 h7 h5 h8]
        refine ⟨iff_of_false (by simp) ?_, fun hx => absurd hx (by simp),
          fun _ hf => absurd hf h4, fun _ _ => rfl⟩
        intro hx
        rcases hx with hx | hx | hx | ⟨hx, _⟩ | ⟨_, hx | hx⟩ | ⟨_, hx⟩
        · exact h1 hx
        · exact hx h2
        · exact h3 hx
        · exact h4 hx
        · exact absurd hx (by simp [h5])
        · exact h8 hx
        · exact hx h7
    · rw [rpd_eq_unknownMagic h1 h2 h3 h4 h7]
      exact ⟨iff_of_true rfl (Or.inr (Or.inr (Or.inr (Or.inr (Or.inr ⟨h4, h7⟩))))), fun _ => rfl,
        fun hx => absurd hx (by simp), fun hx => absurd hx (by simp)⟩

/-! ## Write-side lemmas -/

theorem writeProgramData_param (p : FxPlugin) (hc : p.hasChunkData = false) :
    writeProgramData p =
      fxHeaderBytes ((fxProgramHeaderSize + p.numParams * 4 : Nat) - 8) fMagic
          p.uniqueID p.version (p.numParams : Int) ++
        (nameField p.progName ++ encodeParams p 0 p.numParams) := by
  unfold writeProgramData
  rw [if_pos (by simp [hc])]

theorem writeProgramData_drop56 (p : FxPlugin) (hc : p.hasChunkData = false) :
    (writeProgramData p).drop fxProgramHeaderSize = encodeParams p 0 p.numParams := by
  rw [writeProgramData_param p hc,
    show fxProgramHeaderSize = 28 + 28 from rfl, ← List.drop_drop,
    drop_append_length _ _ 28 (fxHeaderBytes_length _ _ _ _ _),
    drop_append_length _ _ 28 (nameField_length _)]

theorem writeProgramData_cstr (p : FxPlugin) (hc : p.hasChunkData = false)
    (hlen : p.progName.length ≤ 27) (hmem : ∀ b ∈ p.progName, b < 256 ∧ b ≠ 0) :
    cstrAt (writeProgramData p) 28 = p.progName := by
  rw [cstrAt_def, writeProgramData_param p hc,
    drop_append_length _ _ 28 (fxHeaderBytes_length _ _ _ _ _)]
  exact cstr_of_nameField p.progName _ hlen hmem

/-! ## Claim C2: readProgramData accept/reject behaviour -/

/-- C2, counterexample: a 60-byte parameter-form program whose declared
parameter count times 4 (0) is *not equal* to the remaining body (4) is
accepted by `readProgramData`, although the claim lists that input as
invalid and demands `false`. -/
theorem C2_counterexample :
    int32At cdata60 24 * 4 ≠ int32At cdata60 4 + 8 - 56 ∧
    (readProgramData demoFxPlugin cdata60).1 = true := by
  decide

/-- C2, amended: `readProgramData` returns `false` exactly when the
input is invalid — size below the 56-byte header, bad leading magic,
declared byte-size plus 8 exceeding the supplied size (as unsigned
64-bit), parameter form with chunk plugin or with parameter count × 4
*greater than* the remaining body (unsigned 64-bit), chunk form with a
non-chunk plugin or with a declared chunk size different from the
remaining body minus 4, or an unknown form magic — in which case the
plugin state is unchanged; on every accepted input it sets the program
name to the C string at offset 28 and then each of the declared
parameters (or the opaque chunk), and returns `true`. -/
theorem C2_readProgramData_spec (p : FxPlugin) (data : List Nat) :
    ((readProgramData p data).1 = false ↔ invalidProgramData p data) ∧
    ((readProgramData p data).1 = false → (readProgramData p data).2 = p) ∧
    ((readProgramData p data).1 = true →
      (readProgramData p data).2.progName = cstrAt data 28 ∧
      (int32At data 8 = fMagic →
        (∀ j, j < (int32At data 24).toNat →
          (readProgramData p data).2.params j =
            (takeWords (int32At data 24).toNat (data.drop fxProgramHeaderSize)).getD j 0) ∧
        (∀ j, (int32At data 24).toNat ≤ j →
          (readProgramData p data).2.params j = p.params j) ∧
        (readProgramData p data).2.chunk = p.chunk) ∧
      (int32At data 8 = chunkPresetMagic →
        (readProgramData p data).2.chunk =
          ((data.drop 60).take (rpdChunkSize data)).map (· % 256) ∧
        (readProgramData p data).2.params = p.params)) := by
  obtain ⟨hiff, hstate, hparam, hchunk⟩ := rpd_cascade p data
  refine ⟨hiff, hstate, ?_⟩
  intro hacc
  by_cases hform : int32At data 8 = fMagic
  · have heq := hparam hacc hform
    have hfields := spfb_fields (int32At data 24).toNat
      { p with progName := cstrAt data 28 } (data.drop fxProgramHeaderSize) 0
    refine ⟨?_, ?_, ?_⟩
    · rw [heq]
      exact hfields.2.2.1
    · intro _
      refine ⟨?_, ?_, ?_⟩
      · intro j hj
        rw [heq]
        have hchar := spfb_params_char (int32At data 24).toNat
          { p with progName := cstrAt data 28 } (data.drop fxProgramHeaderSize) 0 j
        simp only [Nat.zero_add] at hchar
        rw [hchar, if_pos hj]
      · intro j hj
        rw [heq]
        have hchar := spfb_params_char (int32At data 24).toNat
          { p with progName := cstrAt data 28 } (data.drop fxProgramHeaderSize) 0 j
        simp only [Nat.zero_add] at hchar
        rw [hchar, if_neg (by omega)]
      · rw [heq]
        exact hfields.2.2.2.1
    · intro hcp
      exact absurd (hform.symm.trans hcp) fMagic_ne_chunkPresetMagic
  · have hcp : int32At data 8 = chunkPresetMagic := by
      by_contra hcp
      have hbad := hiff.mpr (Or.inr (Or.inr (Or.inr (Or.inr (Or.inr ⟨hform, hcp⟩)))))
      rw [hacc] at hbad
      exact Bool.noConfusion hbad
    have heq := hchunk hacc hcp
    refine ⟨by rw [heq], fun hf => absurd hf hform, fun _ => ⟨by rw [heq], by rw [heq]⟩⟩

/-- C2, witness: the amended theorem applied to a concrete accepted
parameter-form input, extracting the accept effects and the absence of
invalidity. -/
theorem C2_witness :
    (readProgramData demoFxPlugin cdata56).2.progName = cstrAt cdata56 28 ∧
    (readProgramData demoFxPlugin cdata56).2.chunk = demoFxPlugin.chunk ∧
    ¬invalidProgramData demoFxPlugin cdata56 := by
  have h := C2_readProgramData_spec demoFxPlugin cdata56
  have hacc : (readProgramData demoFxPlugin cdata56).1 = true := by decide
  refine ⟨(h.2.2 hacc).1, ((h.2.2 hacc).2.1 (by decide)).2.2, ?_⟩
  intro hbad
  have hfalse := h.1.mpr hbad
  rw [hacc] at hfalse
  exact Bool.noConfusion hfalse

/-! ## Claim C3: parameter-form decode/encode round trip -/

/-- C3, counterexample: the 56-byte program with declared parameter
count 0 is accepted by a plugin holding one parameter, but the buffer
written immediately afterwards carries one parameter value (the
plugin's pre-existing pattern 7), so the parameter vector after
decode/encode differs from the decoded input vector (which is empty). -/
theorem C3_counterexample :
    demoFxPlugin.hasChunkData = false ∧
    (readProgramData demoFxPlugin cdata56).1 = true ∧
    takeWords (int32At (writeProgramData (readProgramData demoFxPlugin cdata56).2) 24).toNat
        ((writeProgramData (readProgramData demoFxPlugin cdata56).2).drop fxProgramHeaderSize) ≠
      takeWords (int32At cdata56 24).toNat (cdata56.drop fxProgramHeaderSize) := by
  decide

/-- C3, amended: for a plugin without chunk data, if `readProgramData`
accepts a buffer whose declared parameter count equals the plugin's
`numParameters` and whose decoded program name fits in 27 characters,
then the buffer produced by `writeProgramData` immediately afterwards
decodes to the same program name and to the same `numParameters`
big-endian 32-bit parameter values as the accepted input. -/
theorem C3_roundtrip (p : FxPlugin) (data : List Nat)
    (hc : p.hasChunkData = false)
    (hacc : (readProgramData p data).1 = true)
    (hcount : int32At data 24 = (p.numParams : Int))
    (hname : (cstrAt data 28).length ≤ 27) :
    cstrAt (writeProgramData (readProgramData p data).2) 28 = cstrAt data 28 ∧
    takeWords p.numParams
        ((writeProgramData (readProgramData p data).2).drop fxProgramHeaderSize) =
      takeWords p.numParams (data.drop fxProgramHeaderSize) := by
  obtain ⟨hiff, _, hparam, _⟩ := rpd_cascade p data
  have hform : int32At data 8 = fMagic := by
    by_contra hform
    by_cases hcp : int32At data 8 = chunkPresetMagic
    · have hbad := hiff.mpr (Or.inr (Or.inr (Or.inr (Or.inr (Or.inl ⟨hcp, Or.inl hc⟩)))))
      rw [hacc] at hbad
      exact Bool.noConfusion hbad
    · have hbad := hiff.mpr (Or.inr (Or.inr (Or.inr (Or.inr (Or.inr ⟨hform, hcp⟩)))))
      rw [hacc] at hbad
      exact Bool.noConfusion hbad
  have heq := hparam hacc hform
  have hnp : (int32At data 24).toNat = p.numParams := by
    rw [hcount]
    exact Int.toNat_natCast p.numParams
  have hfields := spfb_fields (int32At data 24).toNat
    { p with progName := cstrAt data 28 } (data.drop fxProgramHeaderSize) 0
  have hp2 : (readProgramData p data).2 = setParamsFromBytes
      { p with progName := cstrAt data 28 } (data.drop fxProgramHeaderSize) 0
      (int32At data 24).toNat := by
    rw [heq]
  have hchunkflag : (readProgramData p data).2.hasChunkData = false := by
    rw [hp2]
    rw [hfields.1]
    exact hc
  have hpname : (readProgramData p data).2.progName = cstrAt data 28 := by
    rw [hp2]
    exact hfields.2.2.1
  have hpnum : (readProgramData p data).2.numParams = p.numParams := by
    rw [hp2]
    exact hfields.2.1
  have hpparams : ∀ j, j < p.numParams →
      (readProgramData p data).2.params j =
        (takeWords p.numParams (data.drop fxProgramHeaderSize)).getD j 0 := by
    intro j hj
    rw [hp2]
    have hchar := spfb_params_char (int32At data 24).toNat
      { p with progName := cstrAt data 28 } (data.drop fxProgramHeaderSize) 0 j
    simp only [Nat.zero_add] at hchar
    rw [hchar, if_pos (by omega), hnp]
  constructor
  · rw [writeProgramData_cstr _ hchunkflag (by rw [hpname]; exact hname)
      (by rw [hpname]; exact mem_cstrAt data 28), hpname]
  · rw [writeProgramData_drop56 _ hchunkflag, hpnum,
      takeWords_encodeParams (readProgramData p data).2 p.numParams 0]
    have hlen : (takeWords p.numParams (data.drop fxProgramHeaderSize)).length =
        p.numParams := takeWords_length p.numParams (data.drop fxProgramHeaderSize)
    conv_rhs => rw [← range_map_getD (takeWords p.numParams (data.drop fxProgramHeaderSize)),
      hlen]
    apply List.map_congr_left
    intro j hj
    have hjlt : j < p.numParams := by
      simpa using List.mem_range.mp hj
    rw [Nat.zero_add, hpparams j hjlt, Nat.mod_eq_of_lt]
    have hmem : (takeWords p.numParams (data.drop fxProgramHeaderSize)).getD j 0 ∈
        takeWords p.numParams (data.drop fxProgramHeaderSize) := by
      rw [List.getD_eq_getElem _ _ (by rw [hlen]; exact hjlt)]
      exact List.getElem_mem _
    exact takeWords_lt p.numParams (data.drop fxProgramHeaderSize) _ hmem

/-- C3, witness: the amended round-trip theorem applied to a concrete
accepted 60-byte program with one parameter. -/
theorem C3_witness :
    cstrAt (writeProgramData (readProgramData demoFxPlugin cdataW).2) 28 = cstrAt cdataW 28 ∧
    takeWords demoFxPlugin.numParams
        ((writeProgramData (readProgramData demoFxPlugin cdataW).2).drop fxProgramHeaderSize) =
      takeWords demoFxPlugin.numParams (cdataW.drop fxProgramHeaderSize) :=
  C3_roundtrip demoFxPlugin cdataW rfl (by decide) (by decide) (by decide)

end VstHost
